/-
Verification of the DebugViewlet class
(src/vs/workbench/contrib/debug/browser/debugViewlet.ts).

The class is shallowly embedded as a state structure mirroring its fields
and pure state-transition functions mirroring its methods.  Panel objects
are identified by their id (ids are the identity used by the panel-listener
map); the collection of panel objects that exist is modelled as an
association list (the heap), so that a reference retained after a panel is
detached (breakpointView) still denotes the same mutable object.
-/
import Mathlib

set_option linter.unusedVariables false

/-- Modelled from the spec: the debug-service states (the State enum lives in
vs/workbench/contrib/debug/common/debug.ts, which is not part of the sources;
the spec lists the states Inactive, Initializing, Stopped, Running). -/
inductive DState
  | Inactive
  | Initializing
  | Stopped
  | Running
deriving DecidableEq, Repr

/-- A maximum body size: a finite number of pixels or Number.POSITIVE_INFINITY. -/
inductive BodySize
  | finite (n : Nat)
  | posInfinity
deriving DecidableEq, Repr

/-- The observable data of one ViewletPanel object: its expand state and its
two body-size properties (the id is the key under which it is stored). -/
structure PanelData where
  isExpanded : Bool
  minimumBodySize : Nat
  maximumBodySize : BodySize
deriving DecidableEq, Repr

/-- Modelled from the spec: the id of the breakpoints view
(BREAKPOINTS_VIEW_ID is imported from debug.ts, which is not in the sources). -/
def BREAKPOINTS_VIEW_ID : String := "workbench.debug.breakpointsView"

/-- Modelled from the spec: StartAction.ID (debugActions.ts is not in the
sources); only its identity matters to getActionItem. -/
def StartActionID : String := "workbench.action.debug.start"

/-- Modelled from the spec: FocusSessionAction.ID (debugActions.ts is not in
the sources); only its identity matters to getActionItem. -/
def FocusSessionActionID : String := "workbench.action.debug.focusSession"

/-- Association-list lookup (models Map.get and reading a panel object by id). -/
def alGet {β : Type} (m : List (String × β)) (k : String) : Option β :=
  match m with
  | [] => none
  | (a, b) :: rest => if a = k then some b else alGet rest k

/-- Association-list insert-or-replace (models Map.set and writing through an
object reference). -/
def alSet {β : Type} (m : List (String × β)) (k : String) (v : β) :
    List (String × β) :=
  match m with
  | [] => [(k, v)]
  | (a, b) :: rest => if a = k then (k, v) :: rest else (a, b) :: alSet rest k v

/-- Association-list delete (models Map.delete). -/
def alDelete {β : Type} (m : List (String × β)) (k : String) :
    List (String × β) :=
  match m with
  | [] => []
  | (a, b) :: rest => if a = k then alDelete rest k else (a, b) :: alDelete rest k

/-- The mutable state of a DebugViewlet instance, together with the panel
objects it can reach.  Counters hand out fresh identities for created
objects (listeners, progress runners, action instances, action items). -/
structure DebugViewletState where
  /-- all panel objects that exist, keyed by panel id -/
  heap : List (String × PanelData)
  /-- this.panels of the base class: the ids of the attached panels, in order -/
  panels : List String
  /-- this.breakpointView: the id of the remembered breakpoints panel object -/
  breakpointView : Option String
  /-- this.panelListeners: panel id to the listener (disposable) subscribed -/
  panelListeners : List (String × Nat)
  nextListener : Nat
  /-- listeners that have been disposed -/
  disposedListeners : List Nat
  /-- this.progressRunner -/
  progressRunner : Option Nat
  nextRunner : Nat
  /-- every progress runner ever shown, with its indeterminate flag -/
  shownRunners : List (Nat × Bool)
  /-- runners on which done() was called -/
  doneRunners : List Nat
  /-- number of updateTitleArea() calls -/
  titleAreaUpdates : Nat
  /-- memoization cache of the startAction getter -/
  startActionMemo : Option Nat
  /-- memoization cache of the configureAction getter -/
  configureActionMemo : Option Nat
  /-- memoization cache of the toggleReplAction getter -/
  toggleReplActionMemo : Option Nat
  /-- memoization cache of the selectAndStartAction getter -/
  selectAndStartActionMemo : Option Nat
  /-- this.debugToolbarMenu -/
  debugToolbarMenu : Option Nat
  nextInstance : Nat
  /-- instances registered for release on disposal (this.toDispose) -/
  registeredDisposables : List Nat
  /-- this.startDebugActionItem -/
  startDebugActionItem : Option Nat
  nextItem : Nat
deriving Repr

/-- The state of a freshly constructed viewlet: empty map, nothing created. -/
def initialViewletState : DebugViewletState :=
  { heap := [], panels := [], breakpointView := none, panelListeners := []
    nextListener := 0, disposedListeners := [], progressRunner := none
    nextRunner := 0, shownRunners := [], doneRunners := [], titleAreaUpdates := 0
    startActionMemo := none, configureActionMemo := none
    toggleReplActionMemo := none, selectAndStartActionMemo := none
    debugToolbarMenu := none, nextInstance := 0, registeredDisposables := []
    startDebugActionItem := none, nextItem := 0 }

/-- An action returned by getActions / getSecondaryActions: one of the four
memoized action instances (carrying the instance identity) or an action
contributed to the debug-toolbar menu (carrying the menu handle it came
from and its position). -/
inductive DAction
  | startOf (inst : Nat)
  | configureOf (inst : Nat)
  | toggleReplOf (inst : Nat)
  | selectAndStartOf (inst : Nat)
  | contributed (menu : Nat) (idx : Nat)
deriving DecidableEq, Repr

/-- The environment read from the injected services: the debug service's
state, the configured value of debug.toolBarLocation, and (modelled from the
spec, since debugToolbar.ts is not in the sources) the contributed actions
that DebugToolbar.getActions produces for a given menu handle. -/
structure DebugEnv where
  state : DState
  toolBarLocation : String
  menuActions : Nat → List DAction

/-- get showInitialDebugActions (lines 119-122): true iff the debug service
state is Inactive or debug.toolBarLocation is not docked. -/
def showInitialDebugActions (state : DState) (toolBarLocation : String) : Bool :=
  state == DState.Inactive || toolBarLocation != "docked"

/-- Modelled from the spec: the memoize decorator (vs/base/common/decorators,
not in the sources) makes the startAction getter create its instance at most
once, caching it; the creation path registers the instance for disposal
(this matches the source's this.instantiationService.createInstance wrapped
in this.register). -/
def startAction (s : DebugViewletState) : Nat × DebugViewletState :=
  match s.startActionMemo with
  | some a => (a, s)
  | none =>
    (s.nextInstance,
     { s with startActionMemo := some s.nextInstance
              registeredDisposables := s.registeredDisposables ++ [s.nextInstance]
              nextInstance := s.nextInstance + 1 })

/-- Modelled from the spec: the memoized configureAction getter, as for
startAction. -/
def configureAction (s : DebugViewletState) : Nat × DebugViewletState :=
  match s.configureActionMemo with
  | some a => (a, s)
  | none =>
    (s.nextInstance,
     { s with configureActionMemo := some s.nextInstance
              registeredDisposables := s.registeredDisposables ++ [s.nextInstance]
              nextInstance := s.nextInstance + 1 })

/-- Modelled from the spec: the memoized toggleReplAction getter, as for
startAction. -/
def toggleReplAction (s : DebugViewletState) : Nat × DebugViewletState :=
  match s.toggleReplActionMemo with
  | some a => (a, s)
  | none =>
    (s.nextInstance,
     { s with toggleReplActionMemo := some s.nextInstance
              registeredDisposables := s.registeredDisposables ++ [s.nextInstance]
              nextInstance := s.nextInstance + 1 })

/-- Modelled from the spec: the memoized selectAndStartAction getter, as for
startAction. -/
def selectAndStartAction (s : DebugViewletState) : Nat × DebugViewletState :=
  match s.selectAndStartActionMemo with
  | some a => (a, s)
  | none =>
    (s.nextInstance,
     { s with selectAndStartActionMemo := some s.nextInstance
              registeredDisposables := s.registeredDisposables ++ [s.nextInstance]
              nextInstance := s.nextInstance + 1 })

/-- getActions (lines 107-117): in initial mode the three memoized instances
in order; otherwise the debug-toolbar menu is created lazily (registered on
this.toDispose) and its contributed actions are returned. -/
def getActions (env : DebugEnv) (s : DebugViewletState) :
    List DAction × DebugViewletState :=
  if showInitialDebugActions env.state env.toolBarLocation then
    let r1 := startAction s
    let r2 := configureAction r1.2
    let r3 := toggleReplAction r2.2
    ([DAction.startOf r1.1, DAction.configureOf r2.1, DAction.toggleReplOf r3.1],
     r3.2)
  else
    match s.debugToolbarMenu with
    | some m => (env.menuActions m, s)
    | none =>
      (env.menuActions s.nextInstance,
       { s with debugToolbarMenu := some s.nextInstance
                registeredDisposables := s.registeredDisposables ++ [s.nextInstance]
                nextInstance := s.nextInstance + 1 })

/-- getSecondaryActions (lines 124-130): empty in initial mode, otherwise
selectAndStart, configure, toggleRepl in order. -/
def getSecondaryActions (env : DebugEnv) (s : DebugViewletState) :
    List DAction × DebugViewletState :=
  if showInitialDebugActions env.state env.toolBarLocation then
    ([], s)
  else
    let r1 := selectAndStartAction s
    let r2 := configureAction r1.2
    let r3 := toggleReplAction r2.2
    ([DAction.selectAndStartOf r1.1, DAction.configureOf r2.1,
      DAction.toggleReplOf r3.1], r3.2)

/-- What getActionItem is given: an action with an id, possibly an
instanceof MenuItemAction. -/
structure ActionRef where
  id : String
  isMenuItemAction : Bool
deriving DecidableEq, Repr

/-- What getActionItem returns when it does not return null. -/
inductive ActionItemResult
  | startDebugItem (inst : Nat)
  | focusSessionItem
  | menuItemActionItem
deriving DecidableEq, Repr

/-- getActionItem (lines 132-145): a fresh StartDebugActionItem (remembered in
this.startDebugActionItem) for the Start action id, a FocusSessionActionItem
for the FocusSession action id, a MenuItemActionItem for a MenuItemAction,
otherwise null. -/
def getActionItem (s : DebugViewletState) (action : ActionRef) :
    Option ActionItemResult × DebugViewletState :=
  if action.id = StartActionID then
    (some (ActionItemResult.startDebugItem s.nextItem),
     { s with startDebugActionItem := some s.nextItem, nextItem := s.nextItem + 1 })
  else if action.id = FocusSessionActionID then
    (some ActionItemResult.focusSessionItem, s)
  else if action.isMenuItemAction then
    (some ActionItemResult.menuItemActionItem, s)
  else
    (none, s)

/-- onDebugServiceStateChange (lines 154-166): end the stored progress runner
if any; when the new state is Initializing show a new indeterminate runner
and store it; when debug.toolBarLocation is docked, update the title area. -/
def onDebugServiceStateChange (toolBarLocation : String)
    (s : DebugViewletState) (state : DState) : DebugViewletState :=
  let s1 :=
    match s.progressRunner with
    | some r => { s with doneRunners := s.doneRunners ++ [r] }
    | none => s
  let s2 :=
    if state = DState.Initializing then
      { s1 with progressRunner := some s1.nextRunner
                shownRunners := s1.shownRunners ++ [(s1.nextRunner, true)]
                nextRunner := s1.nextRunner + 1 }
    else s1
  if toolBarLocation = "docked" then
    { s2 with titleAreaUpdates := s2.titleAreaUpdates + 1 }
  else s2

/-- Whether the panel object with the given id is currently expanded. -/
def panelIsExpanded (heap : List (String × PanelData)) (pid : String) : Bool :=
  match alGet heap pid with
  | some p => p.isExpanded
  | none => false

/-- updateBreakpointsMaxSize (lines 190-196): when a breakpoints view is
remembered, its maximumBodySize becomes unbounded when every attached panel
is collapsed or is the breakpoints view itself, and its minimumBodySize
otherwise. -/
def updateBreakpointsMaxSize (s : DebugViewletState) : DebugViewletState :=
  match s.breakpointView with
  | none => s
  | some bv =>
    match alGet s.heap bv with
    | none => s
    | some bp =>
      let allOtherCollapsed :=
        s.panels.all fun pid => !panelIsExpanded s.heap pid || pid == bv
      let bpNew : PanelData :=
        { bp with maximumBodySize :=
            if allOtherCollapsed then BodySize.posInfinity
            else BodySize.finite bp.minimumBodySize }
      { s with heap := alSet s.heap bv bpNew }

/-- super.addPanels for one panel: the panel object exists in the heap and its
id is appended to this.panels. -/
def superAddPanel (s : DebugViewletState) (p : String × PanelData) :
    DebugViewletState :=
  { s with heap := alSet s.heap p.1 p.2, panels := s.panels ++ [p.1] }

/-- The body of the addPanels loop (lines 171-179) for one panel id: the
breakpoints panel is remembered and its maximum size recomputed; any other
panel gets an onDidChange listener stored in the panel-listener map under its
id. -/
def attachPanel (s : DebugViewletState) (pid : String) : DebugViewletState :=
  if pid = BREAKPOINTS_VIEW_ID then
    updateBreakpointsMaxSize { s with breakpointView := some pid }
  else
    { s with panelListeners := alSet s.panelListeners pid s.nextListener
             nextListener := s.nextListener + 1 }

/-- addPanels (lines 168-180): first super.addPanels on the whole batch, then
the loop over the batch. -/
def addPanels (s : DebugViewletState) (ps : List (String × PanelData)) :
    DebugViewletState :=
  (ps.map Prod.fst).foldl attachPanel (ps.foldl superAddPanel s)

/-- The body of the removePanels loop (lines 184-187) for one panel id:
dispose the map entry if present, then delete it. -/
def removePanel (s : DebugViewletState) (pid : String) : DebugViewletState :=
  let s1 :=
    match alGet s.panelListeners pid with
    | some d => { s with disposedListeners := s.disposedListeners ++ [d] }
    | none => s
  { s1 with panelListeners := alDelete s1.panelListeners pid }

/-- removePanels (lines 182-188): super.removePanels detaches the panels from
this.panels, then the loop disposes and deletes each map entry. -/
def removePanels (s : DebugViewletState) (ps : List String) : DebugViewletState :=
  ps.foldl removePanel
    { s with panels := s.panels.filter fun pid => !ps.contains pid }

/-- Firing a panel's onDidChange event: when the panel has a live subscription
in the panel-listener map, the subscribed handler (line 177) runs
updateBreakpointsMaxSize on the current state. -/
def firePanelDidChange (s : DebugViewletState) (pid : String) :
    DebugViewletState :=
  if (alGet s.panelListeners pid).isSome then updateBreakpointsMaxSize s else s

/-- One call on the panel-lifecycle interface of the viewlet. -/
inductive PanelOp
  | add (ps : List (String × PanelData))
  | remove (ps : List String)
deriving Repr

/-- Apply one panel-lifecycle call. -/
def applyOp (s : DebugViewletState) : PanelOp → DebugViewletState
  | PanelOp.add ps => addPanels s ps
  | PanelOp.remove ps => removePanels s ps

/-- Run a sequence of panel-lifecycle calls. -/
def runOps (s : DebugViewletState) (ops : List PanelOp) : DebugViewletState :=
  ops.foldl applyOp s

/-- The panel-listener map invariant: its keys are free of duplicates and it
has an entry exactly for every currently attached non-breakpoints panel. -/
def ListenerInv (s : DebugViewletState) : Prop :=
  (s.panelListeners.map Prod.fst).Nodup ∧
  ∀ pid, (alGet s.panelListeners pid).isSome = true ↔
    (pid ∈ s.panels ∧ pid ≠ BREAKPOINTS_VIEW_ID)

/-! ### Association-list lemmas -/

theorem alGet_alSet_self {β : Type} (m : List (String × β)) (k : String) (v : β) :
    alGet (alSet m k v) k = some v := by
  induction m with
  | nil => simp [alGet, alSet]
  | cons p rest ih =>
    by_cases h : p.1 = k
    · simp [alSet, alGet, h]
    · simp [alSet, alGet, h, ih]

theorem alGet_alSet_ne {β : Type} (m : List (String × β)) (k k' : String) (v : β)
    (h : k' ≠ k) : alGet (alSet m k v) k' = alGet m k' := by
  induction m with
  | nil => simp [alGet, alSet, Ne.symm h]
  | cons p rest ih =>
    by_cases hp : p.1 = k
    · simp [alSet, alGet, hp, Ne.symm h]
    · simp [alSet, alGet, hp, ih]

theorem alGet_alDelete_self {β : Type} (m : List (String × β)) (k : String) :
    alGet (alDelete m k) k = none := by
  induction m with
  | nil => simp [alGet, alDelete]
  | cons p rest ih =>
    by_cases h : p.1 = k
    · simp [alDelete, h, ih]
    · simp [alDelete, alGet, h, ih]

theorem alGet_alDelete_ne {β : Type} (m : List (String × β)) (k k' : String)
    (h : k' ≠ k) : alGet (alDelete m k) k' = alGet m k' := by
  induction m with
  | nil => simp [alDelete]
  | cons p rest ih =>
    by_cases hp : p.1 = k
    · simp [alDelete, alGet, hp, Ne.symm h, ih]
    · simp [alDelete, alGet, hp, ih]

theorem alDelete_of_get_none {β : Type} (m : List (String × β)) (k : String)
    (h : alGet m k = none) : alDelete m k = m := by
  induction m with
  | nil => simp [alDelete]
  | cons p rest ih =>
    by_cases hp : p.1 = k
    · simp [alGet, hp] at h
    · simp [alGet, hp] at h
      simp [alDelete, hp, ih h]

theorem mem_keys_alSet {β : Type} (m : List (String × β)) (k a : String) (v : β) :
    a ∈ (alSet m k v).map Prod.fst ↔ a ∈ m.map Prod.fst ∨ a = k := by
  induction m with
  | nil => simp [alSet]
  | cons p rest ih =>
    obtain ⟨x, y⟩ := p
    by_cases hp : x = k
    · subst hp
      simp [alSet]
      aesop
    · simp [alSet, hp]
      rw [List.mem_map] at ih
      aesop

theorem keys_alSet_nodup {β : Type} (m : List (String × β)) (k : String) (v : β)
    (h : (m.map Prod.fst).Nodup) : ((alSet m k v).map Prod.fst).Nodup := by
  induction m with
  | nil => simp [alSet]
  | cons p rest ih =>
    obtain ⟨x, y⟩ := p
    simp only [List.map_cons, List.nodup_cons] at h
    by_cases hp : x = k
    · subst hp
      simp only [alSet, eq_self_iff_true, if_true, List.map_cons, List.nodup_cons]
      exact And.intro h.1 h.2
    · have hnotin : x ∉ (alSet rest k v).map Prod.fst := by
        rw [mem_keys_alSet]
        rintro (hm | hm)
        · exact h.1 hm
        · exact hp hm
      simp only [alSet, if_neg hp, List.map_cons, List.nodup_cons]
      exact And.intro hnotin (ih h.2)

theorem mem_keys_alDelete {β : Type} (m : List (String × β)) (k a : String) :
    a ∈ (alDelete m k).map Prod.fst → a ∈ m.map Prod.fst := by
  induction m with
  | nil => simp [alDelete]
  | cons p rest ih =>
    obtain ⟨x, y⟩ := p
    by_cases hp : x = k
    · intro h
      rw [List.map_cons, List.mem_cons]
      exact Or.inr (ih (by simpa only [alDelete, if_pos hp] using h))
    · intro h
      rw [List.map_cons, List.mem_cons]
      have h2 : a = x ∨ a ∈ (alDelete rest k).map Prod.fst := by
        have hh := h
        simp only [alDelete, if_neg hp, List.map_cons, List.mem_cons] at hh
        exact hh
      rcases h2 with h1 | h1
      · exact Or.inl h1
      · exact Or.inr (ih h1)

theorem keys_alDelete_nodup {β : Type} (m : List (String × β)) (k : String)
    (h : (m.map Prod.fst).Nodup) : ((alDelete m k).map Prod.fst).Nodup := by
  induction m with
  | nil => simp [alDelete]
  | cons p rest ih =>
    obtain ⟨x, y⟩ := p
    simp only [List.map_cons, List.nodup_cons] at h
    by_cases hp : x = k
    · simpa only [alDelete, if_pos hp] using ih h.2
    · have hnotin : x ∉ (alDelete rest k).map Prod.fst :=
        fun hm => h.1 (mem_keys_alDelete rest k x hm)
      simp only [alDelete, if_neg hp, List.map_cons, List.nodup_cons]
      exact And.intro hnotin (ih h.2)

/-! ### Frame lemmas for the panel operations -/

theorem updateBMS_frame (s : DebugViewletState) :
    (updateBreakpointsMaxSize s).panels = s.panels ∧
    (updateBreakpointsMaxSize s).breakpointView = s.breakpointView ∧
    (updateBreakpointsMaxSize s).panelListeners = s.panelListeners ∧
    (updateBreakpointsMaxSize s).nextListener = s.nextListener ∧
    (updateBreakpointsMaxSize s).disposedListeners = s.disposedListeners := by
  cases hb : s.breakpointView with
  | none => simp [updateBreakpointsMaxSize, hb]
  | some bv =>
    cases hg : alGet s.heap bv with
    | none => simp [updateBreakpointsMaxSize, hb, hg]
    | some bp => simp [updateBreakpointsMaxSize, hb, hg]

theorem attachPanel_panels (s : DebugViewletState) (i : String) :
    (attachPanel s i).panels = s.panels := by
  unfold attachPanel
  by_cases hp : i = BREAKPOINTS_VIEW_ID
  · rw [if_pos hp]
    exact (updateBMS_frame _).1
  · rw [if_neg hp]

theorem attachPanel_heap (s : DebugViewletState) (i : String)
    (h : i ≠ BREAKPOINTS_VIEW_ID) : (attachPanel s i).heap = s.heap := by
  unfold attachPanel
  rw [if_neg h]

theorem attachPanel_bv_ne (s : DebugViewletState) (i : String)
    (h : i ≠ BREAKPOINTS_VIEW_ID) :
    (attachPanel s i).breakpointView = s.breakpointView := by
  unfold attachPanel
  rw [if_neg h]

theorem attachPanel_bv_eq (s : DebugViewletState) :
    (attachPanel s BREAKPOINTS_VIEW_ID).breakpointView =
      some BREAKPOINTS_VIEW_ID := by
  unfold attachPanel
  rw [if_pos rfl, (updateBMS_frame _).2.1]

theorem attachPanel_bv_keeps (s : DebugViewletState) (i : String)
    (h : s.breakpointView = some BREAKPOINTS_VIEW_ID) :
    (attachPanel s i).breakpointView = some BREAKPOINTS_VIEW_ID := by
  by_cases hp : i = BREAKPOINTS_VIEW_ID
  · subst hp
    exact attachPanel_bv_eq s
  · rw [attachPanel_bv_ne s i hp, h]

theorem attachPanel_lookup (s : DebugViewletState) (i pid : String) :
    (alGet (attachPanel s i).panelListeners pid).isSome = true ↔
      (alGet s.panelListeners pid).isSome = true ∨
        (pid = i ∧ i ≠ BREAKPOINTS_VIEW_ID) := by
  unfold attachPanel
  by_cases hp : i = BREAKPOINTS_VIEW_ID
  · rw [if_pos hp, (updateBMS_frame _).2.2.1]
    simp [hp]
  · rw [if_neg hp]
    have hred : (alGet (alSet s.panelListeners i s.nextListener) pid).isSome = true ↔
        (alGet s.panelListeners pid).isSome = true ∨
          (pid = i ∧ i ≠ BREAKPOINTS_VIEW_ID) := by
      by_cases hpi : pid = i
      · subst hpi
        simp [alGet_alSet_self, hp]
      · rw [alGet_alSet_ne s.panelListeners i pid s.nextListener hpi]
        simp [hpi]
    exact hred

theorem attachPanel_nodup (s : DebugViewletState) (i : String)
    (h : (s.panelListeners.map Prod.fst).Nodup) :
    ((attachPanel s i).panelListeners.map Prod.fst).Nodup := by
  unfold attachPanel
  by_cases hp : i = BREAKPOINTS_VIEW_ID
  · rw [if_pos hp, (updateBMS_frame _).2.2.1]
    exact h
  · rw [if_neg hp]
    exact keys_alSet_nodup s.panelListeners i s.nextListener h

theorem attachFold_panels (ids : List String) :
    ∀ s : DebugViewletState, (ids.foldl attachPanel s).panels = s.panels := by
  induction ids with
  | nil => intro s; rfl
  | cons i rest ih =>
    intro s
    rw [List.foldl_cons, ih, attachPanel_panels]

theorem attachFold_lookup (ids : List String) :
    ∀ (s : DebugViewletState) (pid : String),
      (alGet (ids.foldl attachPanel s).panelListeners pid).isSome = true ↔
        (alGet s.panelListeners pid).isSome = true ∨
          (pid ∈ ids ∧ pid ≠ BREAKPOINTS_VIEW_ID) := by
  induction ids with
  | nil => intro s pid; simp
  | cons i rest ih =>
    intro s pid
    rw [List.foldl_cons, ih, attachPanel_lookup]
    constructor
    · rintro ((h | ⟨h1, h2⟩) | ⟨h1, h2⟩)
      · exact Or.inl h
      · refine Or.inr ⟨?_, ?_⟩
        · rw [h1]; exact List.mem_cons_self i rest
        · rw [h1]; exact h2
      · exact Or.inr ⟨List.mem_cons_of_mem i h1, h2⟩
    · rintro (h | ⟨h1, h2⟩)
      · exact Or.inl (Or.inl h)
      · rcases List.mem_cons.mp h1 with h3 | h3
        · subst h3
          exact Or.inl (Or.inr ⟨rfl, h2⟩)
        · exact Or.inr ⟨h3, h2⟩

theorem attachFold_nodup (ids : List String) :
    ∀ s : DebugViewletState, (s.panelListeners.map Prod.fst).Nodup →
      ((ids.foldl attachPanel s).panelListeners.map Prod.fst).Nodup := by
  induction ids with
  | nil => intro s h; exact h
  | cons i rest ih =>
    intro s h
    rw [List.foldl_cons]
    exact ih _ (attachPanel_nodup s i h)

theorem attachFold_bv_keeps (ids : List String) :
    ∀ s : DebugViewletState, s.breakpointView = some BREAKPOINTS_VIEW_ID →
      (ids.foldl attachPanel s).breakpointView = some BREAKPOINTS_VIEW_ID := by
  induction ids with
  | nil => intro s h; exact h
  | cons i rest ih =>
    intro s h
    rw [List.foldl_cons]
    exact ih _ (attachPanel_bv_keeps s i h)

theorem attachFold_bv_sets (ids : List String) (hmem : BREAKPOINTS_VIEW_ID ∈ ids) :
    ∀ s : DebugViewletState,
      (ids.foldl attachPanel s).breakpointView = some BREAKPOINTS_VIEW_ID := by
  induction ids with
  | nil => cases hmem
  | cons i rest ih =>
    intro s
    rw [List.foldl_cons]
    by_cases hp : i = BREAKPOINTS_VIEW_ID
    · subst hp
      exact attachFold_bv_keeps rest _ (attachPanel_bv_eq s)
    · have : BREAKPOINTS_VIEW_ID ∈ rest := by
        rcases List.mem_cons.mp hmem with h | h
        · exact absurd h.symm hp
        · exact h
      exact ih this _

theorem superFold_panels (ps : List (String × PanelData)) :
    ∀ s : DebugViewletState,
      (ps.foldl superAddPanel s).panels = s.panels ++ ps.map Prod.fst := by
  induction ps with
  | nil => intro s; simp
  | cons p rest ih =>
    intro s
    rw [List.foldl_cons, ih]
    simp [superAddPanel]

theorem superFold_frame (ps : List (String × PanelData)) :
    ∀ s : DebugViewletState,
      (ps.foldl superAddPanel s).panelListeners = s.panelListeners ∧
      (ps.foldl superAddPanel s).breakpointView = s.breakpointView ∧
      (ps.foldl superAddPanel s).nextListener = s.nextListener ∧
      (ps.foldl superAddPanel s).disposedListeners = s.disposedListeners := by
  induction ps with
  | nil => intro s; exact ⟨rfl, rfl, rfl, rfl⟩
  | cons p rest ih =>
    intro s
    rw [List.foldl_cons]
    exact ih (superAddPanel s p)

theorem removePanel_listeners (s : DebugViewletState) (q : String) :
    (removePanel s q).panelListeners = alDelete s.panelListeners q := by
  unfold removePanel
  cases h : alGet s.panelListeners q <;> simp

theorem removePanel_lookup (s : DebugViewletState) (q pid : String) :
    alGet (removePanel s q).panelListeners pid =
      if pid = q then none else alGet s.panelListeners pid := by
  rw [removePanel_listeners]
  by_cases h : pid = q
  · rw [if_pos h, h]
    exact alGet_alDelete_self s.panelListeners q
  · rw [if_neg h]
    exact alGet_alDelete_ne s.panelListeners q pid h

theorem removePanel_frame (s : DebugViewletState) (q : String) :
    (removePanel s q).panels = s.panels ∧
    (removePanel s q).breakpointView = s.breakpointView ∧
    (removePanel s q).heap = s.heap ∧
    (removePanel s q).nextListener = s.nextListener := by
  unfold removePanel
  cases h : alGet s.panelListeners q <;> exact ⟨rfl, rfl, rfl, rfl⟩

theorem removePanel_nodup (s : DebugViewletState) (q : String)
    (h : (s.panelListeners.map Prod.fst).Nodup) :
    ((removePanel s q).panelListeners.map Prod.fst).Nodup := by
  rw [removePanel_listeners]
  exact keys_alDelete_nodup s.panelListeners q h

theorem removePanel_disposed_mono (s : DebugViewletState) (q : String) (d : Nat)
    (h : d ∈ s.disposedListeners) : d ∈ (removePanel s q).disposedListeners := by
  unfold removePanel
  cases hg : alGet s.panelListeners q
  · exact h
  · simp only [List.mem_append]
    exact Or.inl h

theorem removePanel_disposed_of (s : DebugViewletState) (q : String) (d : Nat)
    (h : alGet s.panelListeners q = some d) :
    (removePanel s q).disposedListeners = s.disposedListeners ++ [d] := by
  unfold removePanel
  rw [h]

theorem removePanel_disposed_none (s : DebugViewletState) (q : String)
    (h : alGet s.panelListeners q = none) :
    (removePanel s q).disposedListeners = s.disposedListeners := by
  unfold removePanel
  rw [h]

theorem removeFold_lookup (ps : List String) :
    ∀ (s : DebugViewletState) (pid : String),
      alGet ((ps.foldl removePanel s)).panelListeners pid =
        if pid ∈ ps then none else alGet s.panelListeners pid := by
  induction ps with
  | nil => intro s pid; simp
  | cons q rest ih =>
    intro s pid
    rw [List.foldl_cons, ih, removePanel_lookup]
    by_cases h1 : pid ∈ rest
    · simp [h1]
    · by_cases h2 : pid = q <;> simp [h1, h2]

theorem removeFold_frame (ps : List String) :
    ∀ s : DebugViewletState,
      (ps.foldl removePanel s).panels = s.panels ∧
      (ps.foldl removePanel s).breakpointView = s.breakpointView ∧
      (ps.foldl removePanel s).heap = s.heap ∧
      (ps.foldl removePanel s).nextListener = s.nextListener := by
  induction ps with
  | nil => intro s; exact ⟨rfl, rfl, rfl, rfl⟩
  | cons q rest ih =>
    intro s
    rw [List.foldl_cons]
    obtain ⟨e1, e2, e3, e4⟩ := ih (removePanel s q)
    obtain ⟨f1, f2, f3, f4⟩ := removePanel_frame s q
    exact ⟨e1.trans f1, e2.trans f2, e3.trans f3, e4.trans f4⟩

theorem removeFold_nodup (ps : List String) :
    ∀ s : DebugViewletState, (s.panelListeners.map Prod.fst).Nodup →
      ((ps.foldl removePanel s).panelListeners.map Prod.fst).Nodup := by
  induction ps with
  | nil => intro s h; exact h
  | cons q rest ih =>
    intro s h
    rw [List.foldl_cons]
    exact ih _ (removePanel_nodup s q h)

theorem removeFold_disposed_mono (ps : List String) :
    ∀ (s : DebugViewletState) (d : Nat), d ∈ s.disposedListeners →
      d ∈ (ps.foldl removePanel s).disposedListeners := by
  induction ps with
  | nil => intro s d h; exact h
  | cons q rest ih =>
    intro s d h
    rw [List.foldl_cons]
    exact ih _ d (removePanel_disposed_mono s q d h)

theorem removeFold_dispose_entry (ps : List String) :
    ∀ (s : DebugViewletState) (pid : String) (d : Nat), pid ∈ ps →
      alGet s.panelListeners pid = some d →
      d ∈ (ps.foldl removePanel s).disposedListeners := by
  induction ps with
  | nil => intro s pid d h; cases h
  | cons q rest ih =>
    intro s pid d hm hget
    rw [List.foldl_cons]
    by_cases hq : pid = q
    · subst hq
      have hd : d ∈ (removePanel s pid).disposedListeners := by
        rw [removePanel_disposed_of s pid d hget]
        simp
      exact removeFold_disposed_mono rest _ d hd
    · have hm2 : pid ∈ rest := by
        rcases List.mem_cons.mp hm with h | h
        · exact absurd h hq
        · exact h
      have hget2 : alGet (removePanel s q).panelListeners pid = some d := by
        rw [removePanel_lookup, if_neg hq]
        exact hget
      exact ih _ pid d hm2 hget2

theorem removePanels_listeners_lookup (s : DebugViewletState) (ps : List String)
    (pid : String) :
    alGet (removePanels s ps).panelListeners pid =
      if pid ∈ ps then none else alGet s.panelListeners pid := by
  unfold removePanels
  rw [removeFold_lookup]

theorem removePanels_panels (s : DebugViewletState) (ps : List String) :
    (removePanels s ps).panels = s.panels.filter fun pid => !ps.contains pid := by
  unfold removePanels
  rw [(removeFold_frame ps _).1]

theorem removePanels_breakpointView (s : DebugViewletState) (ps : List String) :
    (removePanels s ps).breakpointView = s.breakpointView := by
  unfold removePanels
  rw [(removeFold_frame ps _).2.1]

theorem removePanels_heap (s : DebugViewletState) (ps : List String) :
    (removePanels s ps).heap = s.heap := by
  unfold removePanels
  rw [(removeFold_frame ps _).2.2.1]

theorem updateBMS_heap_eq (s : DebugViewletState) (bv : String) (bp : PanelData)
    (h1 : s.breakpointView = some bv) (h2 : alGet s.heap bv = some bp) :
    (updateBreakpointsMaxSize s).heap =
      alSet s.heap bv
        { bp with maximumBodySize :=
            if s.panels.all fun pid => !panelIsExpanded s.heap pid || pid == bv
            then BodySize.posInfinity else BodySize.finite bp.minimumBodySize } := by
  simp [updateBreakpointsMaxSize, h1, h2]

/-- A convenient concrete viewlet state for evaluating the theorems: the
given heap, attached panels, breakpoint view and listener map over an
otherwise fresh instance. -/
def demoState (heap : List (String × PanelData)) (panels : List String)
    (bv : Option String) (listeners : List (String × Nat)) : DebugViewletState :=
  { initialViewletState with
      heap := heap, panels := panels, breakpointView := bv
      panelListeners := listeners }

/-- C2: showInitialDebugActions is true exactly when the debug-service state
is Inactive or the configured toolbar location differs from docked; in
particular it is true for the Inactive state under every location, and for
every state under a non-docked location. -/
theorem showInitialDebugActions_iff (state : DState) (loc : String) :
    (showInitialDebugActions state loc = true ↔
      (state = DState.Inactive ∨ loc ≠ "docked")) ∧
    (state = DState.Inactive → showInitialDebugActions state loc = true) ∧
    (loc ≠ "docked" → showInitialDebugActions state loc = true) := by
  refine ⟨?_, ?_, ?_⟩
  · simp [showInitialDebugActions]
  · intro h
    simp [showInitialDebugActions, h]
  · intro h
    simp [showInitialDebugActions, h]

/-- Witness for C2 at a concrete state and location. -/
theorem showInitialDebugActions_iff_witness :
    showInitialDebugActions DState.Inactive "docked" = true :=
  (showInitialDebugActions_iff DState.Inactive "docked").2.1 rfl

/-- C5: getSecondaryActions returns the empty list in initial mode and the
select-and-start, configure, toggle-repl instances in that order otherwise. -/
theorem getSecondaryActions_cases (env : DebugEnv) (s : DebugViewletState) :
    (showInitialDebugActions env.state env.toolBarLocation = true →
      (getSecondaryActions env s).1 = []) ∧
    (showInitialDebugActions env.state env.toolBarLocation = false →
      (getSecondaryActions env s).1 =
        [DAction.selectAndStartOf (selectAndStartAction s).1,
         DAction.configureOf (configureAction (selectAndStartAction s).2).1,
         DAction.toggleReplOf
           (toggleReplAction (configureAction (selectAndStartAction s).2).2).1]) := by
  constructor
  · intro h
    simp [getSecondaryActions, h]
  · intro h
    simp [getSecondaryActions, h]

/-- Witness for C5 at a concrete environment and state. -/
theorem getSecondaryActions_cases_witness :
    (getSecondaryActions
        ⟨DState.Inactive, "docked", fun _ => []⟩ initialViewletState).1 = [] :=
  (getSecondaryActions_cases ⟨DState.Inactive, "docked", fun _ => []⟩
    initialViewletState).1 rfl

/-- C9: getActionItem builds and remembers a start-debug action item for the
Start action id, builds a focus-session action item for the Focus-Session
action id, builds a menu action item for a contributed menu action, and
returns null (with the state untouched) otherwise; the checks apply in that
order. -/
theorem getActionItem_cases (s : DebugViewletState) (a : ActionRef) :
    (a.id = StartActionID →
       (getActionItem s a).1 = some (ActionItemResult.startDebugItem s.nextItem) ∧
       (getActionItem s a).2.startDebugActionItem = some s.nextItem) ∧
    (a.id ≠ StartActionID → a.id = FocusSessionActionID →
       (getActionItem s a).1 = some ActionItemResult.focusSessionItem ∧
       (getActionItem s a).2 = s) ∧
    (a.id ≠ StartActionID → a.id ≠ FocusSessionActionID →
     a.isMenuItemAction = true →
       (getActionItem s a).1 = some ActionItemResult.menuItemActionItem ∧
       (getActionItem s a).2 = s) ∧
    (a.id ≠ StartActionID → a.id ≠ FocusSessionActionID →
     a.isMenuItemAction = false →
       (getActionItem s a).1 = none ∧ (getActionItem s a).2 = s) := by
  refine ⟨?_, ?_, ?_, ?_⟩
  · intro h
    simp [getActionItem, h]
  · intro h1 h2
    simp [getActionItem, h2,
      show FocusSessionActionID ≠ StartActionID from by decide]
  · intro h1 h2 h3
    simp [getActionItem, h1, h2, h3]
  · intro h1 h2 h3
    simp [getActionItem, h1, h2, h3]

/-- Witness for C9 at a concrete action reference. -/
theorem getActionItem_cases_witness :
    (getActionItem initialViewletState ⟨StartActionID, false⟩).1 =
      some (ActionItemResult.startDebugItem 0) :=
  ((getActionItem_cases initialViewletState ⟨StartActionID, false⟩).1 rfl).1

/-- C4: on a debug-state change, a stored progress runner is ended first (and
only a stored one); exactly when the new state is Initializing a new
indeterminate runner is shown and stored; and exactly when the toolbar
location is docked the title area is refreshed. -/
theorem onDebugServiceStateChange_spec (loc : String) (s : DebugViewletState)
    (st : DState) :
    (∀ r, s.progressRunner = some r →
       (onDebugServiceStateChange loc s st).doneRunners = s.doneRunners ++ [r]) ∧
    (s.progressRunner = none →
       (onDebugServiceStateChange loc s st).doneRunners = s.doneRunners) ∧
    (st = DState.Initializing →
       (onDebugServiceStateChange loc s st).progressRunner = some s.nextRunner ∧
       (onDebugServiceStateChange loc s st).shownRunners =
         s.shownRunners ++ [(s.nextRunner, true)]) ∧
    (st ≠ DState.Initializing →
       (onDebugServiceStateChange loc s st).shownRunners = s.shownRunners ∧
       (onDebugServiceStateChange loc s st).progressRunner = s.progressRunner) ∧
    (loc = "docked" →
       (onDebugServiceStateChange loc s st).titleAreaUpdates =
         s.titleAreaUpdates + 1) ∧
    (loc ≠ "docked" →
       (onDebugServiceStateChange loc s st).titleAreaUpdates =
         s.titleAreaUpdates) := by
  cases hr : s.progressRunner with
  | none =>
    by_cases hst : st = DState.Initializing <;> by_cases hl : loc = "docked" <;>
      simp [onDebugServiceStateChange, hr, hst, hl]
  | some r =>
    by_cases hst : st = DState.Initializing <;> by_cases hl : loc = "docked" <;>
      simp [onDebugServiceStateChange, hr, hst, hl]

/-- Witness for C4: a stored runner is ended and a new indeterminate one is
shown on an Initializing transition with a docked toolbar. -/
theorem onDebugServiceStateChange_spec_witness :
    (onDebugServiceStateChange "docked"
        { initialViewletState with progressRunner := some 0, nextRunner := 1 }
        DState.Initializing).doneRunners = [] ++ [0] :=
  (onDebugServiceStateChange_spec "docked"
      { initialViewletState with progressRunner := some 0, nextRunner := 1 }
      DState.Initializing).1 0 rfl

/-- C3: when showInitialDebugActions holds, getActions returns exactly the
start, configure and toggle-repl instances in that order; otherwise it
returns the contributed actions of the debug-toolbar menu obtained from the
menu service. -/
theorem getActions_cases (env : DebugEnv) (s : DebugViewletState) :
    (showInitialDebugActions env.state env.toolBarLocation = true →
      (getActions env s).1 =
        [DAction.startOf (startAction s).1,
         DAction.configureOf (configureAction (startAction s).2).1,
         DAction.toggleReplOf
           (toggleReplAction (configureAction (startAction s).2).2).1]) ∧
    (showInitialDebugActions env.state env.toolBarLocation = false →
      ∃ m, (getActions env s).2.debugToolbarMenu = some m ∧
        (getActions env s).1 = env.menuActions m) := by
  constructor
  · intro h
    simp [getActions, h]
  · intro h
    cases hm : s.debugToolbarMenu with
    | some m =>
      refine ⟨m, ?_, ?_⟩ <;> simp [getActions, h, hm]
    | none =>
      refine ⟨s.nextInstance, ?_, ?_⟩ <;> simp [getActions, h, hm]

/-- Witness for C3 at a concrete environment and state. -/
theorem getActions_cases_witness :
    (getActions ⟨DState.Inactive, "docked", fun _ => []⟩ initialViewletState).1 =
      [DAction.startOf 0, DAction.configureOf 1, DAction.toggleReplOf 2] :=
  (getActions_cases ⟨DState.Inactive, "docked", fun _ => []⟩
    initialViewletState).1 rfl

/-- C8: each memoized getter (start, configure, toggle-repl, select-and-start)
creates its instance at most once — a second read returns the same instance
and leaves the state unchanged — and registers it for disposal on creation;
getActions outside initial mode creates the debug-toolbar menu at most once,
registers it, and a repeated call reuses the same menu and returns the same
actions. -/
theorem memoized_single_instance :
    (∀ s : DebugViewletState,
       startAction (startAction s).2 = ((startAction s).1, (startAction s).2)) ∧
    (∀ s : DebugViewletState,
       configureAction (configureAction s).2 =
         ((configureAction s).1, (configureAction s).2)) ∧
    (∀ s : DebugViewletState,
       toggleReplAction (toggleReplAction s).2 =
         ((toggleReplAction s).1, (toggleReplAction s).2)) ∧
    (∀ s : DebugViewletState,
       selectAndStartAction (selectAndStartAction s).2 =
         ((selectAndStartAction s).1, (selectAndStartAction s).2)) ∧
    (∀ s : DebugViewletState, s.startActionMemo = none →
       (startAction s).1 ∈ (startAction s).2.registeredDisposables) ∧
    (∀ s : DebugViewletState, s.configureActionMemo = none →
       (configureAction s).1 ∈ (configureAction s).2.registeredDisposables) ∧
    (∀ s : DebugViewletState, s.toggleReplActionMemo = none →
       (toggleReplAction s).1 ∈ (toggleReplAction s).2.registeredDisposables) ∧
    (∀ s : DebugViewletState, s.selectAndStartActionMemo = none →
       (selectAndStartAction s).1 ∈
         (selectAndStartAction s).2.registeredDisposables) ∧
    (∀ (env : DebugEnv) (s : DebugViewletState),
       showInitialDebugActions env.state env.toolBarLocation = false →
       (getActions env (getActions env s).2).2 = (getActions env s).2 ∧
       (getActions env (getActions env s).2).1 = (getActions env s).1 ∧
       (s.debugToolbarMenu = none →
         s.nextInstance ∈ (getActions env s).2.registeredDisposables)) := by
  refine ⟨?_, ?_, ?_, ?_, ?_, ?_, ?_, ?_, ?_⟩
  · intro s
    cases h : s.startActionMemo <;> simp [startAction, h]
  · intro s
    cases h : s.configureActionMemo <;> simp [configureAction, h]
  · intro s
    cases h : s.toggleReplActionMemo <;> simp [toggleReplAction, h]
  · intro s
    cases h : s.selectAndStartActionMemo <;> simp [selectAndStartAction, h]
  · intro s h
    simp [startAction, h]
  · intro s h
    simp [configureAction, h]
  · intro s h
    simp [toggleReplAction, h]
  · intro s h
    simp [selectAndStartAction, h]
  · intro env s h
    cases hm : s.debugToolbarMenu with
    | some m => refine ⟨?_, ?_, ?_⟩ <;> simp [getActions, h, hm]
    | none => refine ⟨?_, ?_, ?_⟩ <;> simp [getActions, h, hm]

/-- Witness for C8: the second read of the memoized start action on a fresh
state returns the instance created by the first. -/
theorem memoized_single_instance_witness :
    startAction (startAction initialViewletState).2 =
      ((startAction initialViewletState).1,
       (startAction initialViewletState).2) ∧
    (startAction initialViewletState).1 ∈
      (startAction initialViewletState).2.registeredDisposables :=
  ⟨memoized_single_instance.1 initialViewletState,
   memoized_single_instance.2.2.2.2.1 initialViewletState rfl⟩

/-- C1: at every run of the sizing recomputation with a remembered breakpoints
view, the view's maximumBodySize becomes positive infinity when every other
attached panel is collapsed and its minimumBodySize when some other attached
panel is expanded; the recomputation is what runs when a subscribed sibling
fires its changed event and when the breakpoints panel is attached. -/
theorem breakpoints_sizing_rule :
    (∀ (s : DebugViewletState) (bv : String) (bp : PanelData),
       s.breakpointView = some bv → alGet s.heap bv = some bp →
       ((∀ pid ∈ s.panels, pid ≠ bv → panelIsExpanded s.heap pid = false) →
          alGet (updateBreakpointsMaxSize s).heap bv =
            some { bp with maximumBodySize := BodySize.posInfinity }) ∧
       ((∃ pid ∈ s.panels, pid ≠ bv ∧ panelIsExpanded s.heap pid = true) →
          alGet (updateBreakpointsMaxSize s).heap bv =
            some { bp with maximumBodySize :=
                     BodySize.finite bp.minimumBodySize })) ∧
    (∀ (s : DebugViewletState) (pid : String),
       (alGet s.panelListeners pid).isSome = true →
       firePanelDidChange s pid = updateBreakpointsMaxSize s) ∧
    (∀ (s : DebugViewletState) (pd : PanelData),
       addPanels s [(BREAKPOINTS_VIEW_ID, pd)] =
         updateBreakpointsMaxSize
           { s with heap := alSet s.heap BREAKPOINTS_VIEW_ID pd
                    panels := s.panels ++ [BREAKPOINTS_VIEW_ID]
                    breakpointView := some BREAKPOINTS_VIEW_ID }) := by
  refine ⟨?_, ?_, ?_⟩
  · intro s bv bp h1 h2
    constructor
    · intro hall
      have hcond :
          (s.panels.all fun pid => !panelIsExpanded s.heap pid || pid == bv)
            = true := by
        rw [List.all_eq_true]
        intro pid hpid
        by_cases hbv : pid = bv
        · simp [hbv]
        · simp [hall pid hpid hbv, hbv]
      rw [updateBMS_heap_eq s bv bp h1 h2, hcond]
      rw [alGet_alSet_self]
      simp
    · rintro ⟨pid, hpid, hne, hexp⟩
      have hcond :
          (s.panels.all fun pid => !panelIsExpanded s.heap pid || pid == bv)
            = false := by
        cases hc :
            (s.panels.all fun pid => !panelIsExpanded s.heap pid || pid == bv)
        · rfl
        · exfalso
          have := List.all_eq_true.mp hc pid hpid
          simp [hexp, hne] at this
      rw [updateBMS_heap_eq s bv bp h1 h2, hcond]
      rw [alGet_alSet_self]
      simp
  · intro s pid h
    simp [firePanelDidChange, h]
  · intro s pd
    simp [addPanels, superAddPanel, attachPanel]

/-- Witness for C1: with the breakpoints panel and one collapsed sibling
attached, the recomputation sets the breakpoints maximum size unbounded. -/
theorem breakpoints_sizing_rule_witness :
    alGet
      (updateBreakpointsMaxSize
        (demoState
          [(BREAKPOINTS_VIEW_ID, ⟨true, 100, BodySize.finite 100⟩),
           ("workbench.debug.watchView", ⟨false, 50, BodySize.finite 50⟩)]
          [BREAKPOINTS_VIEW_ID, "workbench.debug.watchView"]
          (some BREAKPOINTS_VIEW_ID)
          [("workbench.debug.watchView", 0)])).heap BREAKPOINTS_VIEW_ID =
      some ⟨true, 100, BodySize.posInfinity⟩ :=
  ((breakpoints_sizing_rule.1
      (demoState
        [(BREAKPOINTS_VIEW_ID, ⟨true, 100, BodySize.finite 100⟩),
         ("workbench.debug.watchView", ⟨false, 50, BodySize.finite 50⟩)]
        [BREAKPOINTS_VIEW_ID, "workbench.debug.watchView"]
        (some BREAKPOINTS_VIEW_ID)
        [("workbench.debug.watchView", 0)])
      BREAKPOINTS_VIEW_ID ⟨true, 100, BodySize.finite 100⟩
      rfl (by decide)).1 (by decide))

/-- C7: removing a panel with no entry in the panel-listener map leaves the
map and the disposed set unchanged; a single removal deletes and disposes the
entry; and a second removal of the same panel changes neither the map nor the
disposed set. -/
theorem removePanels_idempotent (s : DebugViewletState) (pid : String) :
    (alGet s.panelListeners pid = none →
       (removePanels s [pid]).panelListeners = s.panelListeners ∧
       (removePanels s [pid]).disposedListeners = s.disposedListeners) ∧
    (∀ d, alGet s.panelListeners pid = some d →
       alGet (removePanels s [pid]).panelListeners pid = none ∧
       (removePanels s [pid]).disposedListeners = s.disposedListeners ++ [d]) ∧
    ((removePanels (removePanels s [pid]) [pid]).panelListeners =
       (removePanels s [pid]).panelListeners ∧
     (removePanels (removePanels s [pid]) [pid]).disposedListeners =
       (removePanels s [pid]).disposedListeners) := by
  refine ⟨?_, ?_, ?_⟩
  · intro h
    constructor
    · show (removePanel _ pid).panelListeners = s.panelListeners
      rw [removePanel_listeners]
      exact alDelete_of_get_none s.panelListeners pid h
    · show (removePanel _ pid).disposedListeners = s.disposedListeners
      exact removePanel_disposed_none _ pid h
  · intro d h
    constructor
    · rw [removePanels_listeners_lookup]
      simp
    · show (removePanel _ pid).disposedListeners = s.disposedListeners ++ [d]
      exact removePanel_disposed_of _ pid d h
  · have hnone : alGet (removePanels s [pid]).panelListeners pid = none := by
      rw [removePanels_listeners_lookup]
      simp
    constructor
    · show (removePanel _ pid).panelListeners =
        (removePanels s [pid]).panelListeners
      rw [removePanel_listeners]
      exact alDelete_of_get_none _ pid hnone
    · show (removePanel _ pid).disposedListeners =
        (removePanels s [pid]).disposedListeners
      exact removePanel_disposed_none _ pid hnone

/-- Witness for C7: removing an attached panel disposes its listener and a
repeat removal is a no-op on the map. -/
theorem removePanels_idempotent_witness :
    alGet
      (removePanels (demoState [] ["workbench.debug.watchView"] none
          [("workbench.debug.watchView", 7)])
        ["workbench.debug.watchView"]).panelListeners
      "workbench.debug.watchView" = none :=
  ((removePanels_idempotent
      (demoState [] ["workbench.debug.watchView"] none
        [("workbench.debug.watchView", 7)])
      "workbench.debug.watchView").2.1 7 rfl).1

/-- C10: removePanels never changes the stored breakpoint-view reference, even
when the breakpoints panel itself is removed; afterwards the sizing
recomputation still assigns the detached breakpoints panel a maximum body
size according to the usual rule. -/
theorem removePanels_keeps_breakpointView :
    (∀ (s : DebugViewletState) (ps : List String),
       (removePanels s ps).breakpointView = s.breakpointView) ∧
    (∀ (s : DebugViewletState) (bv : String) (bp : PanelData),
       s.breakpointView = some bv → alGet s.heap bv = some bp →
       bv ∉ s.panels →
       alGet (updateBreakpointsMaxSize s).heap bv =
         some { bp with maximumBodySize :=
             if s.panels.all fun pid => !panelIsExpanded s.heap pid || pid == bv
             then BodySize.posInfinity
             else BodySize.finite bp.minimumBodySize }) := by
  constructor
  · intro s ps
    exact removePanels_breakpointView s ps
  · intro s bv bp h1 h2 hdetached
    rw [updateBMS_heap_eq s bv bp h1 h2]
    exact alGet_alSet_self s.heap bv _

/-- Witness for C10: after the breakpoints panel is detached (one expanded
sibling remains attached), the recomputation still clamps the detached
panel's maximum size to its minimum. -/
theorem removePanels_keeps_breakpointView_witness :
    alGet
      (updateBreakpointsMaxSize
        (demoState
          [(BREAKPOINTS_VIEW_ID, ⟨true, 100, BodySize.finite 100⟩),
           ("workbench.debug.watchView", ⟨true, 50, BodySize.finite 50⟩)]
          ["workbench.debug.watchView"]
          (some BREAKPOINTS_VIEW_ID)
          [("workbench.debug.watchView", 0)])).heap BREAKPOINTS_VIEW_ID =
      some ⟨true, 100, BodySize.finite 100⟩ := by
  have h :=
    removePanels_keeps_breakpointView.2
      (demoState
        [(BREAKPOINTS_VIEW_ID, ⟨true, 100, BodySize.finite 100⟩),
         ("workbench.debug.watchView", ⟨true, 50, BodySize.finite 50⟩)]
        ["workbench.debug.watchView"]
        (some BREAKPOINTS_VIEW_ID)
        [("workbench.debug.watchView", 0)])
      BREAKPOINTS_VIEW_ID ⟨true, 100, BodySize.finite 100⟩
      rfl (by decide) (by decide)
  rw [h]
  decide

theorem ListenerInv_initial : ListenerInv initialViewletState := by
  constructor
  · simp [initialViewletState]
  · intro pid
    simp [initialViewletState, alGet]

theorem ListenerInv_addPanels (s : DebugViewletState)
    (ps : List (String × PanelData)) (h : ListenerInv s) :
    ListenerInv (addPanels s ps) := by
  obtain ⟨hnodup, hmem⟩ := h
  constructor
  · unfold addPanels
    apply attachFold_nodup
    rw [(superFold_frame ps s).1]
    exact hnodup
  · intro pid
    unfold addPanels
    rw [attachFold_lookup, (superFold_frame ps s).1, attachFold_panels,
      superFold_panels, hmem pid, List.mem_append]
    constructor
    · rintro (⟨h1, h2⟩ | ⟨h1, h2⟩)
      · exact ⟨Or.inl h1, h2⟩
      · exact ⟨Or.inr h1, h2⟩
    · rintro ⟨h1 | h1, h2⟩
      · exact Or.inl ⟨h1, h2⟩
      · exact Or.inr ⟨h1, h2⟩

theorem ListenerInv_removePanels (s : DebugViewletState) (ps : List String)
    (h : ListenerInv s) : ListenerInv (removePanels s ps) := by
  obtain ⟨hnodup, hmem⟩ := h
  constructor
  · unfold removePanels
    apply removeFold_nodup
    exact hnodup
  · intro pid
    rw [removePanels_listeners_lookup s ps pid, removePanels_panels s ps]
    by_cases hin : pid ∈ ps
    · simp only [if_pos hin, Option.isSome_none]
      constructor
      · intro h
        cases h
      · rintro ⟨h1, h2⟩
        rw [List.mem_filter] at h1
        have : pid ∈ ps → False := by
          intro hx
          have := h1.2
          rw [Bool.not_eq_true', ← Bool.not_eq_true] at this
          exact this (List.elem_eq_true_of_mem hx)
        exact absurd hin this
    · simp only [if_neg hin]
      rw [hmem pid, List.mem_filter]
      constructor
      · rintro ⟨h1, h2⟩
        refine ⟨⟨h1, ?_⟩, h2⟩
        rw [Bool.not_eq_true']
        by_cases hc : ps.contains pid
        · exact absurd (List.mem_of_elem_eq_true hc) hin
        · exact Bool.not_eq_true _ ▸ (Bool.eq_false_iff.mpr hc)
      · rintro ⟨⟨h1, _⟩, h2⟩
        exact ⟨h1, h2⟩

/-- C6: starting from the freshly constructed viewlet, every sequence of
addPanels and removePanels calls preserves the panel-listener map invariant —
one entry exactly for every attached non-breakpoints panel; removePanels
disposes and deletes the entry of every removed panel; and addPanels
remembers the breakpoints panel separately instead of giving it an entry. -/
theorem panel_listener_map_invariant :
    (∀ ops : List PanelOp, ListenerInv (runOps initialViewletState ops)) ∧
    (∀ (s : DebugViewletState) (ps : List String) (pid : String) (d : Nat),
       pid ∈ ps → alGet s.panelListeners pid = some d →
       alGet (removePanels s ps).panelListeners pid = none ∧
       d ∈ (removePanels s ps).disposedListeners) ∧
    (∀ (s : DebugViewletState) (ps : List (String × PanelData)),
       BREAKPOINTS_VIEW_ID ∈ ps.map Prod.fst →
       (addPanels s ps).breakpointView = some BREAKPOINTS_VIEW_ID) := by
  refine ⟨?_, ?_, ?_⟩
  · have hgen : ∀ (ops : List PanelOp) (s : DebugViewletState),
        ListenerInv s → ListenerInv (runOps s ops) := by
      intro ops
      induction ops with
      | nil => intro s h; exact h
      | cons op rest ih =>
        intro s h
        show ListenerInv (runOps (applyOp s op) rest)
        apply ih
        cases op with
        | add ps => exact ListenerInv_addPanels s ps h
        | remove ps => exact ListenerInv_removePanels s ps h
    intro ops
    exact hgen ops initialViewletState ListenerInv_initial
  · intro s ps pid d hmem hget
    constructor
    · rw [removePanels_listeners_lookup, if_pos hmem]
    · unfold removePanels
      exact removeFold_dispose_entry ps _ pid d hmem hget
  · intro s ps hmem
    unfold addPanels
    apply attachFold_bv_sets (ps.map Prod.fst) hmem

/-- Witness for C6: a concrete attach of breakpoints plus a sibling followed
by removal of the sibling satisfies the invariant. -/
theorem panel_listener_map_invariant_witness :
    ListenerInv
      (runOps initialViewletState
        [PanelOp.add
           [(BREAKPOINTS_VIEW_ID, ⟨true, 100, BodySize.finite 100⟩),
            ("workbench.debug.watchView", ⟨true, 50, BodySize.finite 50⟩)],
         PanelOp.remove ["workbench.debug.watchView"]]) ∧
    (alGet
        (removePanels
          (demoState [] ["workbench.debug.callStackView"] none
            [("workbench.debug.callStackView", 3)])
          ["workbench.debug.callStackView"]).panelListeners
        "workbench.debug.callStackView" = none ∧
     3 ∈ (removePanels
        (demoState [] ["workbench.debug.callStackView"] none
          [("workbench.debug.callStackView", 3)])
        ["workbench.debug.callStackView"]).disposedListeners) :=
  ⟨panel_listener_map_invariant.1
    [PanelOp.add
       [(BREAKPOINTS_VIEW_ID, ⟨true, 100, BodySize.finite 100⟩),
        ("workbench.debug.watchView", ⟨true, 50, BodySize.finite 50⟩)],
     PanelOp.remove ["workbench.debug.watchView"]],
   panel_listener_map_invariant.2.1
     (demoState [] ["workbench.debug.callStackView"] none
       [("workbench.debug.callStackView", 3)])
     ["workbench.debug.callStackView"] "workbench.debug.callStackView" 3
     (by decide) rfl⟩
